import Mathlib

/-!
Shallow embedding of `src/frontend/src/services/financialNetworkService.ts`
(the refresh-token revision of `FinancialNetworkService`): the localStorage
credential store, the axios default Authorization header, `login`, `logout`,
`doRefreshToken`, the 401 response interceptor, `handleError`, and the CRUD
wrappers.  Strings model the opaque tokens and request bodies; the JavaScript
falsiness test `!token` is modelled as `t = ""` on a present string and as
absence on a missing field.
-/

namespace FinNet

/-- Fixed localStorage key for the access token (source string `accessToken`). -/
def accessKey : String := "accessToken"

/-- Fixed localStorage key for the refresh token (source string `refreshToken`). -/
def refreshKey : String := "refreshToken"

/-- `localStorage`, a string-keyed map of strings. -/
def Store := String → Option String

def Store.getItem (st : Store) (k : String) : Option String := st k

def Store.setItem (st : Store) (k v : String) : Store :=
  fun k2 => if k2 = k then some v else st k2

def Store.removeItem (st : Store) (k : String) : Store :=
  fun k2 => if k2 = k then none else st k2

/-- A fresh localStorage with no keys set. -/
def emptyStore : Store := fun _ => none

/-- The mutable state of the `FinancialNetworkService` instance together with
the process-local durable storage and the axios default Authorization header:
fields `accessToken`, `refreshToken` (source lines 159-160), `store`
(localStorage) and `authHeader` (`axios.defaults.headers.common.Authorization`). -/
structure Svc where
  accessToken : Option String
  refreshToken : Option String
  store : Store
  authHeader : Option String

/-- The header value `Bearer ${token}` attached by `setAuthHeader`. -/
def bearer (t : String) : String := "Bearer " ++ t

/-- Source lines 205-207: `setAuthHeader` writes the axios default header. -/
def setAuthHeader (s : Svc) (t : String) : Svc :=
  { s with authHeader := some (bearer t) }

/-- Source lines 280-286: `logout` removes both storage keys, nulls both token
fields and deletes the Authorization default header. -/
def logout (s : Svc) : Svc :=
  { accessToken := none
    refreshToken := none
    store := (s.store.removeItem accessKey).removeItem refreshKey
    authHeader := none }

/-- Source lines 163-172: the constructor loads both tokens from localStorage
and sets the Authorization header only when an access token was present. -/
def constructorInit (st : Store) : Svc :=
  { accessToken := st.getItem accessKey
    refreshToken := st.getItem refreshKey
    store := st
    authHeader :=
      match st.getItem accessKey with
      | some t => some (bearer t)
      | none => none }

/-- An HTTP response carried inside an axios error: status code and an opaque
body (`error.response.status`, `error.response.data`). -/
structure HttpResponse where
  status : Nat
  body : String
deriving DecidableEq, Repr

/-- An axios rejection value: a message and an optional HTTP response
(`error.message`, `error.response`); `response = none` models a transport
error that produced no response, or a plain `Error` thrown locally. -/
structure AxiosErr where
  message : String
  response : Option HttpResponse
deriving DecidableEq, Repr

/-- The `APIError` record of `types.ts`: `{message, status, details}`. -/
structure APIError where
  message : String
  status : Nat
  details : Option String
deriving DecidableEq, Repr

/-- Source lines 251-258: `handleError` builds an `APIError` from an axios
error.  `error.response?.status || 500` yields 500 when there is no response
and also when the status number is falsy (0). -/
def handleError (e : AxiosErr) : APIError :=
  { message := e.message
    status :=
      match e.response with
      | some r => if r.status = 0 then 500 else r.status
      | none => 500
    details := e.response.map (fun r => r.body) }

/-- The body of a `token/` response as it arrives on the wire: either field
may be absent (`AuthResponse` of `types.ts`, runtime-checked in `login`). -/
structure AuthResponse where
  access : Option String
  refresh : Option String
deriving DecidableEq, Repr

/-- An error surfaced by `login`: the `APIError` thrown by `handleError`, or
the local `Error` with message `Invalid token response`. -/
inductive LoginErr where
  | api (e : APIError)
  | invalidTokenResponse
deriving DecidableEq, Repr

/-- Source lines 261-278: `login` posts to `token/` (its outcome is the
`wire` argument), wraps a transport failure through `handleError`, rejects a
response in which either token is falsy (`!access || !refresh`), and only
then mutates the token fields, both storage keys and the header. -/
def login (s : Svc) (wire : Except AxiosErr AuthResponse) :
    Svc × Except LoginErr Unit :=
  match wire with
  | .error e => (s, .error (.api (handleError e)))
  | .ok resp =>
    match resp.access, resp.refresh with
    | some a, some r =>
      if a = "" ∨ r = "" then (s, .error .invalidTokenResponse)
      else
        ({ accessToken := some a
           refreshToken := some r
           store := (s.store.setItem accessKey a).setItem refreshKey r
           authHeader := some (bearer a) }, .ok ())
    | _, _ => (s, .error .invalidTokenResponse)

/-- The body of a `token/refresh/` response as it arrives on the wire; the
backend may or may not include a rotated refresh token. -/
structure RefreshWire where
  access : Option String
  refresh : Option String
deriving DecidableEq, Repr

/-- An error with which the refresh promise rejects: the two local `Error`
throws of `doRefreshToken`, or the axios error of the `token/refresh/` call. -/
inductive RefreshErr where
  | noRefreshToken
  | noAccessToken
  | transport (e : AxiosErr)
deriving DecidableEq, Repr

/-- Source lines 234-243 plus the catch at 244-248: the continuation of
`doRefreshToken` that runs when the `token/refresh/` response has arrived.
A falsy access token throws inside the `try`, so the catch logs out; a
present access token is stored (field, storage key, header).  The stored
refresh token is not touched in either branch. -/
def doRefreshTokenResume (s : Svc) (resp : RefreshWire) :
    Svc × Except RefreshErr String :=
  match resp.access with
  | some a =>
    if a = "" then (logout s, .error .noAccessToken)
    else
      (setAuthHeader { s with accessToken := some a
                              store := s.store.setItem accessKey a } a, .ok a)
  | none => (logout s, .error .noAccessToken)

/-- Source lines 224-248: `doRefreshToken`.  With no stored refresh token it
throws before any network activity; otherwise it posts to `token/refresh/`
(outcome `wire`), logging out and rethrowing on a transport failure.  The
last component counts the `token/refresh/` network calls issued. -/
def doRefreshToken (s : Svc) (wire : Except AxiosErr RefreshWire) :
    Svc × Except RefreshErr String × Nat :=
  match s.refreshToken with
  | none => (s, .error .noRefreshToken, 0)
  | some _ =>
    match wire with
    | .error e => (logout s, .error (.transport e), 1)
    | .ok resp =>
      match doRefreshTokenResume s resp with
      | (s1, out) => (s1, out, 1)

/-- The value with which the interceptor rejects after a failed refresh,
viewed through `handleError` in the catch of the caller: the two local `Error`
values carry no response. -/
def refreshErrAsAxios : RefreshErr → AxiosErr
  | .noRefreshToken => { message := "No refresh token available", response := none }
  | .noAccessToken => { message := "No access token received", response := none }
  | .transport e => e

/-- Source line 181: the interceptor enters the refresh path only when the
rejection carries a response with status 401. -/
def is401 (e : AxiosErr) : Bool :=
  match e.response with
  | some r => r.status == 401
  | none => false

/-- The HTTP transport underneath axios, one function per verb used by the
service; bodies are opaque strings. -/
structure Transport where
  get : String → Except AxiosErr String
  post : String → String → Except AxiosErr String
  put : String → String → Except AxiosErr String
  del : String → Except AxiosErr String

/-- The `.catch(error => this.handleError(error as AxiosError))` applied
inline by every CRUD method. -/
def catchErr (r : Except AxiosErr String) : Except APIError String :=
  match r with
  | .ok v => .ok v
  | .error e => .error (handleError e)

/-- Variant of `catchErr` for the void-returning delete methods. -/
def catchErrUnit (r : Except AxiosErr String) : Except APIError Unit :=
  match r with
  | .ok _ => .ok ()
  | .error e => .error (handleError e)

def createNode (tr : Transport) (node : String) : Except APIError String :=
  catchErr (tr.post ("nodes/") node)

def getNodes (tr : Transport) : Except APIError String :=
  catchErr (tr.get ("nodes/"))

def getNode (tr : Transport) (nodeId : Int) : Except APIError String :=
  catchErr (tr.get ("nodes/" ++ toString nodeId ++ "/"))

def updateNode (tr : Transport) (nodeId : Int) (node : String) :
    Except APIError String :=
  catchErr (tr.put ("nodes/" ++ toString nodeId ++ "/") node)

def deleteNode (tr : Transport) (nodeId : Int) : Except APIError Unit :=
  catchErrUnit (tr.del ("nodes/" ++ toString nodeId ++ "/"))

def createEdge (tr : Transport) (edge : String) : Except APIError String :=
  catchErr (tr.post ("edges/") edge)

def getEdges (tr : Transport) : Except APIError String :=
  catchErr (tr.get ("edges/"))

def getEdge (tr : Transport) (edgeId : Int) : Except APIError String :=
  catchErr (tr.get ("edges/" ++ toString edgeId ++ "/"))

def updateEdge (tr : Transport) (edgeId : Int) (edge : String) :
    Except APIError String :=
  catchErr (tr.put ("edges/" ++ toString edgeId ++ "/") edge)

def deleteEdge (tr : Transport) (edgeId : Int) : Except APIError Unit :=
  catchErrUnit (tr.del ("edges/" ++ toString edgeId ++ "/"))

def createTransaction (tr : Transport) (txn : String) : Except APIError String :=
  catchErr (tr.post ("transactions/") txn)

def getTransactions (tr : Transport) : Except APIError String :=
  catchErr (tr.get ("transactions/"))

def getTransaction (tr : Transport) (txnId : Int) : Except APIError String :=
  catchErr (tr.get ("transactions/" ++ toString txnId ++ "/"))

def updateTransaction (tr : Transport) (txnId : Int) (txn : String) :
    Except APIError String :=
  catchErr (tr.put ("transactions/" ++ toString txnId ++ "/") txn)

def deleteTransaction (tr : Transport) (txnId : Int) : Except APIError Unit :=
  catchErrUnit (tr.del ("transactions/" ++ toString txnId ++ "/"))

def simulateTransactions (tr : Transport) (params : String) :
    Except APIError String :=
  catchErr (tr.post ("transactions/simulate/") params)

/-- A transport on which every call fails with the same axios error. -/
def failTransport (e : AxiosErr) : Transport :=
  { get := fun _ => .error e
    post := fun _ _ => .error e
    put := fun _ _ => .error e
    del := fun _ => .error e }

/-- Every transport verb rejects with the axios error `e`. -/
def FailsWith (tr : Transport) (e : AxiosErr) : Prop :=
  (∀ u, tr.get u = .error e) ∧ (∀ u b, tr.post u b = .error e) ∧
  (∀ u b, tr.put u b = .error e) ∧ (∀ u, tr.del u = .error e)

/-- Outcome of one application request run through the response interceptor:
final service state, the value the caller sees, the number of dispatches of
the application request itself, and the number of `token/refresh/` calls. -/
structure RunResult where
  svc : Svc
  result : Except APIError String
  dataCalls : Nat
  refreshCalls : Nat

/-- One `getNodes` call composed with the response interceptor (source lines
175-202, 209-248, 295-299), sequentially: `first` is the outcome of the
initial `axios.get` dispatch, `wire` the outcome of `token/refresh/` should
it be reached, `retryOutcome` the outcome of re-dispatching the request with
a given new token.  A non-401 rejection bypasses the refresh path; a 401 on
the retry is rejected outright because `_retry` is already set. -/
def runGetNodes (s : Svc) (first : Except AxiosErr String)
    (wire : Except AxiosErr RefreshWire)
    (retryOutcome : String → Except AxiosErr String) : RunResult :=
  match first with
  | .ok body => ⟨s, .ok body, 1, 0⟩
  | .error e =>
    if is401 e then
      match doRefreshToken s wire with
      | (s1, .ok newTok, rc) =>
        match retryOutcome newTok with
        | .ok body => ⟨s1, .ok body, 2, rc⟩
        | .error e2 => ⟨s1, .error (handleError e2), 2, rc⟩
      | (s1, .error rerr, rc) =>
        ⟨logout s1, .error (handleError (refreshErrAsAxios rerr)), 1, rc⟩
    else
      ⟨s, .error (handleError e), 1, 0⟩

namespace Machine

/-!
A small-step interleaving semantics for the refresh coordinator (source lines
175-202 and 209-248) under the single-threaded event loop: `n` application
requests have each received a 401 rejection, and the atomic steps are the
synchronous segments between `await` points.  `intercept i` runs request
the interceptor of `i` up to its suspension on the shared refresh promise
(lines 180-189 plus the synchronous start of `refreshAccessToken` and
`doRefreshToken`); `settle` runs the continuation of `doRefreshToken` when
the `token/refresh/` response arrives (lines 234-248); `resume i` runs
the interceptor continuation of request `i` after the refresh promise settles
(lines 191-195 or 196-200); `retryDone i` delivers the outcome of the
re-dispatched request to its caller (line 195, with a second 401 rejected at
line 181 because `_retry` is already set).  The machine covers one refresh
round; the `finally` at lines 219-221 only re-enables a later round and has
no effect within a round, and schedules in which the interceptor of a request
runs after the settlement of the round (impossible for 401s received before the
refresh completes, since the event loop runs their handlers first) are
excluded where a claim needs it via `interceptsBeforeSettle`.
-/

/-- The per-request position in the interceptor protocol.  `retrying tok`
records that the request was re-dispatched with `Authorization: Bearer tok`
(line 192); the three last constructors are the outcomes delivered to the
caller, `succeeded tok` standing for any non-401 response of the retry
propagated unchanged. -/
inductive TaskSt where
  | got401
  | waiting
  | retrying (tok : String)
  | succeeded (tok : String)
  | failedRetry (tok : String)
  | failedSession
deriving DecidableEq, Repr

/-- Whether a task has delivered a result to its caller. -/
def TaskSt.final : TaskSt → Bool
  | .succeeded _ => true
  | .failedRetry _ => true
  | .failedSession => true
  | _ => false

/-- The state of the shared `this.refreshing` promise: absent, in flight, or
settled with the refresh outcome. -/
inductive RefreshSt where
  | idle
  | pending
  | settledOk (tok : String)
  | settledErr
deriving DecidableEq, Repr

/-- A global configuration: the service instance, the refresh promise, a
count of `token/refresh/` network calls issued, and the state of each request with
its retry-dispatch count. -/
structure Config (n : Nat) where
  svc : Svc
  refresh : RefreshSt
  refreshCalls : Nat
  tasks : Fin n → TaskSt
  retries : Fin n → Nat

/-- The environment: what `token/refresh/` answers, and whether for request `i`
retry is rejected with 401 again. -/
structure Oracle (n : Nat) where
  refreshWire : Except AxiosErr RefreshWire
  retry401 : Fin n → Bool

/-- Scheduling labels, one per atomic segment. -/
inductive Label (n : Nat) where
  | intercept (i : Fin n)
  | settle
  | resume (i : Fin n)
  | retryDone (i : Fin n)
deriving DecidableEq, Repr

variable {n : Nat}

/-- The interceptor of request `i` runs: it marks `_retry` and calls
`refreshAccessToken`.  With `this.refreshing` null it starts
`doRefreshToken`, which either throws before any network activity (no stored
refresh token, line 225-227, leaving an already-rejected promise) or issues
the single `token/refresh/` call (line 230); otherwise it simply awaits the
existing promise (lines 211-213). -/
def applyIntercept (c : Config n) (i : Fin n) : Option (Config n) :=
  match c.tasks i with
  | .got401 =>
    match c.refresh with
    | .idle =>
      match c.svc.refreshToken with
      | none => some { c with refresh := .settledErr
                              tasks := Function.update c.tasks i .waiting }
      | some _ => some { c with refresh := .pending
                                refreshCalls := c.refreshCalls + 1
                                tasks := Function.update c.tasks i .waiting }
    | _ => some { c with tasks := Function.update c.tasks i .waiting }
  | _ => none

/-- The `token/refresh/` response arrives and `doRefreshToken` finishes: on a
transport error its catch logs out and rethrows (lines 244-248); otherwise
the continuation `doRefreshTokenResume` (lines 234-243) runs, in the same
synchronous segment as the promise settlement. -/
def applySettle (o : Oracle n) (c : Config n) : Option (Config n) :=
  match c.refresh with
  | .pending =>
    match o.refreshWire with
    | .error _ => some { c with svc := logout c.svc, refresh := .settledErr }
    | .ok resp =>
      match doRefreshTokenResume c.svc resp with
      | (s1, .ok t) => some { c with svc := s1, refresh := .settledOk t }
      | (s1, .error _) => some { c with svc := s1, refresh := .settledErr }
  | _ => none

/-- Request `i` resumes from awaiting the settled promise: on success the
interceptor stamps the new token into the Authorization header of the request and
re-dispatches it (lines 192-195); on failure its catch calls `logout` and
rejects the request with the refresh error (lines 196-200). -/
def applyResume (c : Config n) (i : Fin n) : Option (Config n) :=
  match c.tasks i, c.refresh with
  | .waiting, .settledOk t =>
    some { c with tasks := Function.update c.tasks i (.retrying t)
                  retries := Function.update c.retries i (c.retries i + 1) }
  | .waiting, .settledErr =>
    some { c with svc := logout c.svc
                  tasks := Function.update c.tasks i .failedSession }
  | _, _ => none

/-- The re-dispatched request `i` completes: a second 401 is rejected at line
181 because `_retry` is set (so it reaches the caller as a terminal failure),
any other outcome propagates unchanged. -/
def applyRetryDone (o : Oracle n) (c : Config n) (i : Fin n) : Option (Config n) :=
  match c.tasks i with
  | .retrying t =>
    match o.retry401 i with
    | true => some { c with tasks := Function.update c.tasks i (.failedRetry t) }
    | false => some { c with tasks := Function.update c.tasks i (.succeeded t) }
  | _ => none

/-- One atomic step of the event loop. -/
def step (o : Oracle n) (c : Config n) : Label n → Option (Config n)
  | .intercept i => applyIntercept c i
  | .settle => applySettle o c
  | .resume i => applyResume c i
  | .retryDone i => applyRetryDone o c i

/-- Run a schedule; `none` when a label was not enabled. -/
def run (o : Oracle n) : Config n → List (Label n) → Option (Config n)
  | c, [] => some c
  | c, l :: ls =>
    match step o c l with
    | some c1 => run o c1 ls
    | none => none

/-- The storage contents of an authenticated session with access token `a`
and refresh token `r`. -/
def initStore (a r : String) : Store :=
  (emptyStore.setItem accessKey a).setItem refreshKey r

/-- An authenticated service instance holding the pair `(a, r)`. -/
def initSvc (a r : String) : Svc :=
  { accessToken := some a
    refreshToken := some r
    store := initStore a r
    authHeader := some (bearer a) }

/-- The initial configuration of the scenario: an authenticated session and `n`
concurrent requests that have each just received a 401 rejection, no refresh
started yet. -/
def init (n : Nat) (a r : String) : Config n :=
  { svc := initSvc a r
    refresh := .idle
    refreshCalls := 0
    tasks := fun _ => .got401
    retries := fun _ => 0 }

/-- No `intercept` label occurs in the list. -/
def interceptFree : List (Label n) → Bool
  | [] => true
  | .intercept _ :: _ => false
  | _ :: ls => interceptFree ls

/-- Every `intercept` label precedes any `settle` label: the schedules the
event loop can realize when all `n` requests received their 401 before the
refresh completed (their rejection handlers were enqueued first). -/
def interceptsBeforeSettle : List (Label n) → Bool
  | [] => true
  | .settle :: ls => interceptFree ls
  | _ :: ls => interceptsBeforeSettle ls

/-- Rank of a task state, strictly decreasing along its protocol. -/
def trank : TaskSt → Nat
  | .got401 => 3
  | .waiting => 2
  | .retrying _ => 1
  | _ => 0

/-- Rank of the refresh promise state. -/
def rrank : RefreshSt → Nat
  | .idle => 2
  | .pending => 1
  | _ => 0

/-- Termination measure of a configuration. -/
def mval (c : Config n) : Nat :=
  rrank c.refresh + Finset.univ.sum (fun i => trank (c.tasks i))

/-- The observable credential state: token fields, header, and both storage
keys. -/
def SvcIs (s : Svc) (a r h sa sr : Option String) : Prop :=
  s.accessToken = a ∧ s.refreshToken = r ∧ s.authHeader = h ∧
  s.store.getItem accessKey = sa ∧ s.store.getItem refreshKey = sr

/-- The access token a given `token/refresh/` outcome delivers, if any
(`none` for a transport error, a missing access field, or a falsy one). -/
def wireTok : Except AxiosErr RefreshWire → Option String
  | .error _ => none
  | .ok resp =>
    match resp.access with
    | some a => if a = "" then none else some a
    | none => none

/-- Task states compatible with a successfully settled refresh of token `t`:
every re-dispatched request carries exactly `t`. -/
def okTask (t : String) : TaskSt → Prop
  | .got401 => True
  | .waiting => True
  | .retrying t2 => t2 = t
  | .succeeded t2 => t2 = t
  | .failedRetry t2 => t2 = t
  | .failedSession => False

/-- Task states compatible with a failed refresh: nothing is ever retried. -/
def errTask : TaskSt → Prop
  | .got401 => True
  | .waiting => True
  | .failedSession => True
  | _ => False

/-- The number of retry dispatches a task state implies. -/
def retriesOf : TaskSt → Nat
  | .retrying _ => 1
  | .succeeded _ => 1
  | .failedRetry _ => 1
  | _ => 0

/-- The inductive invariant of the machine, relative to the oracle and the
initial pair `(a, r)`. -/
structure Inv (o : Oracle n) (a r : String) (c : Config n) : Prop where
  idleH : c.refresh = .idle →
    c.refreshCalls = 0 ∧ (∀ i, c.tasks i = .got401) ∧
    SvcIs c.svc (some a) (some r) (some (bearer a)) (some a) (some r)
  pendingH : c.refresh = .pending →
    c.refreshCalls = 1 ∧ (∀ i, c.tasks i = .got401 ∨ c.tasks i = .waiting) ∧
    SvcIs c.svc (some a) (some r) (some (bearer a)) (some a) (some r)
  okH : ∀ t, c.refresh = .settledOk t →
    c.refreshCalls = 1 ∧ wireTok o.refreshWire = some t ∧
    (∀ i, okTask t (c.tasks i)) ∧
    SvcIs c.svc (some t) (some r) (some (bearer t)) (some t) (some r)
  errH : c.refresh = .settledErr →
    c.refreshCalls = 1 ∧ wireTok o.refreshWire = none ∧
    (∀ i, errTask (c.tasks i)) ∧
    SvcIs c.svc none none none none none
  retriesH : ∀ i, c.retries i = retriesOf (c.tasks i)
  succH : ∀ i t, c.tasks i = .succeeded t → o.retry401 i = false
  frH : ∀ i t, c.tasks i = .failedRetry t → o.retry401 i = true

end Machine

/-- A service instance restarted against empty storage: the unauthenticated
state after a failed refresh cleared both keys. -/
def unauthSvc : Svc := constructorInit emptyStore

/-- A 401 rejection as axios delivers it. -/
def err401 : AxiosErr :=
  { message := "Request failed with status code 401"
    response := some { status := 401, body := "" } }

/-- A 404 rejection as axios delivers it. -/
def err404 : AxiosErr :=
  { message := "Request failed with status code 404"
    response := some { status := 404, body := "not found" } }

/-- An authenticated service instance holding the pair `(T1, R1)`. -/
def svcT1R1 : Svc := Machine.initSvc ("T1") ("R1")

/-- A `token/refresh/` response that rotates the refresh token. -/
def rotatedWire : RefreshWire := { access := some ("T2"), refresh := some ("R2") }

/-- A `token/refresh/` response carrying only a new access token. -/
def okWire : RefreshWire := { access := some ("T2"), refresh := none }

/-- Two concurrent requests, refresh succeeds, both retries succeed. -/
def okOracle : Machine.Oracle 2 :=
  { refreshWire := .ok okWire, retry401 := fun _ => false }

/-- A complete schedule for `okOracle`. -/
def okTrace : List (Machine.Label 2) :=
  [.intercept 0, .intercept 1, .settle, .resume 0, .resume 1,
   .retryDone 0, .retryDone 1]

/-- The final configuration of the `okOracle` run. -/
def okFinal : Machine.Config 2 :=
  (Machine.run okOracle (Machine.init 2 ("T1") ("R1")) okTrace).getD
    (Machine.init 2 ("T1") ("R1"))

/-- Two concurrent requests, refresh succeeds, the retry of request 0 is 401 again. -/
def mixOracle : Machine.Oracle 2 :=
  { refreshWire := .ok okWire, retry401 := fun i => i.val == 0 }

/-- The final configuration of the `mixOracle` run. -/
def mixFinal : Machine.Config 2 :=
  (Machine.run mixOracle (Machine.init 2 ("T1") ("R1")) okTrace).getD
    (Machine.init 2 ("T1") ("R1"))

/-- Two concurrent requests and a refresh rejected by the backend. -/
def failOracle : Machine.Oracle 2 :=
  { refreshWire := .error err401, retry401 := fun _ => false }

/-- A complete schedule for `failOracle`. -/
def failTrace : List (Machine.Label 2) :=
  [.intercept 0, .intercept 1, .settle, .resume 0, .resume 1]

/-- The final configuration of the `failOracle` run. -/
def failFinal : Machine.Config 2 :=
  (Machine.run failOracle (Machine.init 2 ("T1") ("R1")) failTrace).getD
    (Machine.init 2 ("T1") ("R1"))

theorem access_ne_refresh : accessKey ≠ refreshKey := by decide

theorem getItem_set_same (st : Store) (k v : String) :
    (st.setItem k v).getItem k = some v := by
  simp [Store.getItem, Store.setItem]

theorem getItem_set_other (st : Store) (k k2 v : String) (h : k2 ≠ k) :
    (st.setItem k v).getItem k2 = st.getItem k2 := by
  simp [Store.getItem, Store.setItem, h]

theorem getItem_remove_same (st : Store) (k : String) :
    (st.removeItem k).getItem k = none := by
  simp [Store.getItem, Store.removeItem]

theorem getItem_remove_other (st : Store) (k k2 : String) (h : k2 ≠ k) :
    (st.removeItem k).getItem k2 = st.getItem k2 := by
  simp [Store.getItem, Store.removeItem, h]

/-- After `logout` both token fields, both storage keys and the header read
as absent. -/
theorem logout_reads (s : Svc) :
    (logout s).accessToken = none ∧ (logout s).refreshToken = none ∧
    (logout s).authHeader = none ∧
    (logout s).store.getItem accessKey = none ∧
    (logout s).store.getItem refreshKey = none := by
  refine ⟨rfl, rfl, rfl, ?_, ?_⟩
  · show ((s.store.removeItem accessKey).removeItem refreshKey).getItem accessKey = none
    rw [getItem_remove_other _ _ _ access_ne_refresh, getItem_remove_same]
  · show ((s.store.removeItem accessKey).removeItem refreshKey).getItem refreshKey = none
    rw [getItem_remove_same]

/-- C10: login is atomic on failure — whenever `login` surfaces an error
(transport or backend rejection, or a response with a missing or falsy access
or refresh token), the in-memory tokens, the persisted storage keys and the
authorization header are left exactly as they were before the call. -/
theorem login_atomic_on_failure (s : Svc) (wire : Except AxiosErr AuthResponse)
    (err : LoginErr) (h : (login s wire).2 = .error err) :
    (login s wire).1 = s := by
  cases wire with
  | error e => rfl
  | ok resp =>
    cases ha : resp.access with
    | none => simp [login, ha]
    | some a =>
      cases hr : resp.refresh with
      | none => simp [login, ha, hr]
      | some r =>
        by_cases hc : a = "" ∨ r = ""
        · simp [login, ha, hr, hc]
        · exfalso
          simp [login, ha, hr, hc] at h

theorem login_atomic_on_failure_witness :
    (login svcT1R1 (.error err404)).1 = svcT1R1 :=
  login_atomic_on_failure svcT1R1 (.error err404) (.api (handleError err404)) rfl

/-- C7: persistence round-trip — a successful login stores the pair under the
fixed keys; re-running the constructor load against that storage yields the
same pair as the in-memory credentials, and a restart after `logout` yields
absent credentials. -/
theorem persistence_round_trip (s : Svc) (a r : String) (ha : a ≠ "") (hr : r ≠ "") :
    (login s (.ok { access := some a, refresh := some r })).2 = .ok () ∧
    (login s (.ok { access := some a, refresh := some r })).1.accessToken = some a ∧
    (login s (.ok { access := some a, refresh := some r })).1.refreshToken = some r ∧
    (constructorInit (login s (.ok { access := some a, refresh := some r })).1.store).accessToken
      = some a ∧
    (constructorInit (login s (.ok { access := some a, refresh := some r })).1.store).refreshToken
      = some r ∧
    (constructorInit (logout s).store).accessToken = none ∧
    (constructorInit (logout s).store).refreshToken = none := by
  have hc : ¬(a = "" ∨ r = "") := by simp [ha, hr]
  refine ⟨?_, ?_, ?_, ?_, ?_, ?_, ?_⟩
  · simp [login, hc]
  · simp [login, hc]
  · simp [login, hc]
  · show (login s (.ok { access := some a, refresh := some r })).1.store.getItem accessKey
      = some a
    simp only [login, hc, if_false]
    rw [getItem_set_other _ _ _ _ access_ne_refresh, getItem_set_same]
  · show (login s (.ok { access := some a, refresh := some r })).1.store.getItem refreshKey
      = some r
    simp only [login, hc, if_false]
    rw [getItem_set_same]
  · show (logout s).store.getItem accessKey = none
    exact (logout_reads s).2.2.2.1
  · show (logout s).store.getItem refreshKey = none
    exact (logout_reads s).2.2.2.2

theorem persistence_round_trip_witness :
    (constructorInit (login svcT1R1 (.ok { access := some ("T3"), refresh := some ("R3") })).1.store).accessToken
      = some ("T3") ∧
    (constructorInit (logout svcT1R1).store).refreshToken = none :=
  ⟨(persistence_round_trip svcT1R1 ("T3") ("R3") (by decide) (by decide)).2.2.2.1,
   (persistence_round_trip svcT1R1 ("T3") ("R3") (by decide) (by decide)).2.2.2.2.2.2⟩

/-- C8 counterexample: after `logout` during an in-flight refresh, the
refresh success continuation (source lines 234-243) reinstates the new
access token in memory, in durable storage and in the authorization header —
refuting the claim that the refresh result is discarded and the session
stays unauthenticated. -/
theorem logout_race_reinstates_cex :
    (doRefreshTokenResume (logout svcT1R1) okWire).1.accessToken = some ("T2") ∧
    (doRefreshTokenResume (logout svcT1R1) okWire).1.store.getItem accessKey = some ("T2") ∧
    (doRefreshTokenResume (logout svcT1R1) okWire).1.authHeader = some (bearer ("T2")) := by
  refine ⟨rfl, ?_, rfl⟩
  show ((logout svcT1R1).store.setItem accessKey ("T2")).getItem accessKey = some ("T2")
  rw [getItem_set_same]

/-- C8 (amended): when `logout` happens while a refresh is in flight and the
refresh then completes successfully, its result is applied, not discarded:
the new access token is reinstated in memory, durable storage and the
authorization header (only the refresh token stays cleared), so the explicit
logout does not win the race. -/
theorem refresh_result_applied_after_logout (s : Svc) (t : String)
    (rot : Option String) (ht : t ≠ "") :
    (doRefreshTokenResume (logout s) { access := some t, refresh := rot }).1.accessToken
      = some t ∧
    (doRefreshTokenResume (logout s) { access := some t, refresh := rot }).1.store.getItem accessKey
      = some t ∧
    (doRefreshTokenResume (logout s) { access := some t, refresh := rot }).1.authHeader
      = some (bearer t) ∧
    (doRefreshTokenResume (logout s) { access := some t, refresh := rot }).1.refreshToken
      = none ∧
    (doRefreshTokenResume (logout s) { access := some t, refresh := rot }).2 = .ok t := by
  refine ⟨?_, ?_, ?_, ?_, ?_⟩
  · simp only [doRefreshTokenResume, ht, if_false, setAuthHeader]
  · simp only [doRefreshTokenResume, ht, if_false, setAuthHeader]
    rw [getItem_set_same]
  · simp only [doRefreshTokenResume, ht, if_false, setAuthHeader]
  · simp only [doRefreshTokenResume, ht, if_false, setAuthHeader]
    rfl
  · simp only [doRefreshTokenResume, ht, if_false, setAuthHeader]

theorem refresh_result_applied_after_logout_witness :
    (doRefreshTokenResume (logout svcT1R1) { access := some ("T9"), refresh := none }).1.accessToken
      = some ("T9") :=
  (refresh_result_applied_after_logout svcT1R1 ("T9") none (by decide)).1

/-- C6 counterexample: a successful refresh whose response rotates in a new
refresh token (`R2`) leaves the stored refresh token at its old value (`R1`),
in memory and in storage — refuting the claim that the rotated token replaces
the stored one. -/
theorem refresh_rotation_ignored_cex :
    (doRefreshToken svcT1R1 (.ok rotatedWire)).1.refreshToken = some ("R1") ∧
    (doRefreshToken svcT1R1 (.ok rotatedWire)).1.store.getItem refreshKey = some ("R1") ∧
    some ("R1") ≠ some ("R2") := by
  refine ⟨rfl, ?_, by decide⟩
  show ((svcT1R1.store.setItem accessKey ("T2")).getItem refreshKey) = some ("R1")
  rw [getItem_set_other _ _ _ _ (Ne.symm access_ne_refresh)]
  show (Machine.initStore ("T1") ("R1")).getItem refreshKey = some ("R1")
  rw [Machine.initStore, getItem_set_same]

/-- C6 (amended): for every successful refresh response the stored refresh
token is left unchanged — even when the response body carries a new refresh
token — and only the access token is replaced; rotation is not honoured. -/
theorem refresh_keeps_stored_refresh_token (s : Svc) (resp : RefreshWire)
    (r0 a : String) (hs : s.refreshToken = some r0) (hacc : resp.access = some a)
    (ha : a ≠ "") :
    (doRefreshToken s (.ok resp)).1.refreshToken = some r0 ∧
    (doRefreshToken s (.ok resp)).1.store.getItem refreshKey = s.store.getItem refreshKey ∧
    (doRefreshToken s (.ok resp)).2.1 = .ok a ∧
    (doRefreshToken s (.ok resp)).1.accessToken = some a := by
  refine ⟨?_, ?_, ?_, ?_⟩
  · simp [doRefreshToken, hs, doRefreshTokenResume, hacc, ha, setAuthHeader]
  · simp only [doRefreshToken, hs, doRefreshTokenResume, hacc, ha, if_false, setAuthHeader]
    rw [getItem_set_other _ _ _ _ (Ne.symm access_ne_refresh)]
  · simp only [doRefreshToken, hs, doRefreshTokenResume, hacc, ha, if_false, setAuthHeader]
  · simp only [doRefreshToken, hs, doRefreshTokenResume, hacc, ha, if_false, setAuthHeader]

theorem refresh_keeps_stored_refresh_token_witness :
    (doRefreshToken svcT1R1 (.ok rotatedWire)).1.refreshToken = some ("R1") :=
  (refresh_keeps_stored_refresh_token svcT1R1 rotatedWire ("R1") ("T2") rfl rfl
    (by decide)).1

/-- C5 counterexample: a `getNodes` issued while the session is
unauthenticated does perform its network call (one dispatch of `nodes/`) —
refuting the claim that the operation fails fast without a network call. -/
theorem unauth_request_makes_network_call :
    (runGetNodes unauthSvc (.error err401) (.error err401) (fun _ => .ok (""))).dataCalls = 1 ∧
    (runGetNodes unauthSvc (.error err401) (.error err401) (fun _ => .ok (""))).dataCalls ≠ 0 ∧
    (runGetNodes unauthSvc (.error err401) (.error err401) (fun _ => .ok (""))).refreshCalls = 0 := by
  refine ⟨rfl, ?_, rfl⟩
  decide

/-- C5 (amended): a request issued while the session is unauthenticated
performs its own network call, receives 401, and then fails without any
`token/refresh/` network call: `doRefreshToken` fails fast on the missing
refresh token and the request is rejected with the wrapped refresh error. -/
theorem unauth_request_fails_without_refresh_call (s : Svc) (e : AxiosErr)
    (wire : Except AxiosErr RefreshWire) (retry : String → Except AxiosErr String)
    (hat : s.accessToken = none) (hrt : s.refreshToken = none) (he : is401 e = true) :
    (runGetNodes s (.error e) wire retry).refreshCalls = 0 ∧
    (runGetNodes s (.error e) wire retry).dataCalls = 1 ∧
    (runGetNodes s (.error e) wire retry).result =
      .error (handleError (refreshErrAsAxios .noRefreshToken)) ∧
    (runGetNodes s (.error e) wire retry).svc.accessToken = none ∧
    (runGetNodes s (.error e) wire retry).svc.refreshToken = none := by
  refine ⟨?_, ?_, ?_, ?_, ?_⟩ <;>
    simp [runGetNodes, he, doRefreshToken, hrt, logout]

theorem unauth_request_fails_without_refresh_call_witness :
    (runGetNodes unauthSvc (.error err401) (.error err401) (fun _ => .ok (""))).refreshCalls = 0 :=
  (unauth_request_fails_without_refresh_call unauthSvc err401 (.error err401)
    (fun _ => .ok ("")) rfl rfl rfl).1

/-- C9: every CRUD and simulation method surfaces a failing transport call as
the `APIError` built by `handleError` — `{message, status, details}` with the
status taken from the HTTP response when one exists (HTTP statuses are
positive) and 500 otherwise — never the raw transport error. -/
theorem crud_errors_wrapped (tr : Transport) (e : AxiosErr) (nid eid tid : Int)
    (body : String) (hf : FailsWith tr e) :
    createNode tr body = .error (handleError e) ∧
    getNodes tr = .error (handleError e) ∧
    getNode tr nid = .error (handleError e) ∧
    updateNode tr nid body = .error (handleError e) ∧
    deleteNode tr nid = .error (handleError e) ∧
    createEdge tr body = .error (handleError e) ∧
    getEdges tr = .error (handleError e) ∧
    getEdge tr eid = .error (handleError e) ∧
    updateEdge tr eid body = .error (handleError e) ∧
    deleteEdge tr eid = .error (handleError e) ∧
    createTransaction tr body = .error (handleError e) ∧
    getTransactions tr = .error (handleError e) ∧
    getTransaction tr tid = .error (handleError e) ∧
    updateTransaction tr tid body = .error (handleError e) ∧
    deleteTransaction tr tid = .error (handleError e) ∧
    simulateTransactions tr body = .error (handleError e) ∧
    (e.response = none → (handleError e).status = 500) ∧
    (∀ resp2, e.response = some resp2 → 0 < resp2.status →
      (handleError e).status = resp2.status) := by
  obtain ⟨hg, hp, hu, hd⟩ := hf
  refine ⟨?_, ?_, ?_, ?_, ?_, ?_, ?_, ?_, ?_, ?_, ?_, ?_, ?_, ?_, ?_, ?_, ?_, ?_⟩
  case _ => simp [createNode, catchErr, hp]
  case _ => simp [getNodes, catchErr, hg]
  case _ => simp [getNode, catchErr, hg]
  case _ => simp [updateNode, catchErr, hu]
  case _ => simp [deleteNode, catchErrUnit, hd]
  case _ => simp [createEdge, catchErr, hp]
  case _ => simp [getEdges, catchErr, hg]
  case _ => simp [getEdge, catchErr, hg]
  case _ => simp [updateEdge, catchErr, hu]
  case _ => simp [deleteEdge, catchErrUnit, hd]
  case _ => simp [createTransaction, catchErr, hp]
  case _ => simp [getTransactions, catchErr, hg]
  case _ => simp [getTransaction, catchErr, hg]
  case _ => simp [updateTransaction, catchErr, hu]
  case _ => simp [deleteTransaction, catchErrUnit, hd]
  case _ => simp [simulateTransactions, catchErr, hp]
  case _ =>
    intro h
    simp [handleError, h]
  case _ =>
    intro resp2 h h0
    have hne : ¬resp2.status = 0 := by omega
    simp [handleError, h, hne]

theorem crud_errors_wrapped_witness :
    getNodes (failTransport err404) = .error (handleError err404) ∧
    (handleError err404).status = 404 := by
  have h := crud_errors_wrapped (failTransport err404) err404 1 1 1 ("")
    ⟨fun _ => rfl, fun _ _ => rfl, fun _ _ => rfl, fun _ => rfl⟩
  obtain ⟨-, hg, -, -, -, -, -, -, -, -, -, -, -, -, -, -, -, hs⟩ := h
  exact ⟨hg, hs _ rfl (by decide)⟩

namespace Machine

variable {n : Nat}

theorem update_forall {P : TaskSt → Prop} (ts : Fin n → TaskSt) (i : Fin n)
    (v : TaskSt) (hall : ∀ j, P (ts j)) (hv : P v) :
    ∀ j, P (Function.update ts i v j) := by
  intro j
  rcases eq_or_ne j i with rfl | hj
  · rwa [Function.update_same]
  · rw [Function.update_noteq hj]
    exact hall j

theorem update_cases (ts : Fin n → TaskSt) (i j : Fin n) (v : TaskSt) :
    Function.update ts i v j = v ∨ Function.update ts i v j = ts j := by
  rcases eq_or_ne j i with rfl | hj
  · left
    rw [Function.update_same]
  · right
    rw [Function.update_noteq hj]

theorem initSvc_reads (a r : String) :
    SvcIs (initSvc a r) (some a) (some r) (some (bearer a)) (some a) (some r) := by
  refine ⟨rfl, rfl, rfl, ?_, ?_⟩
  · show (initStore a r).getItem accessKey = some a
    rw [initStore, getItem_set_other _ _ _ _ access_ne_refresh, getItem_set_same]
  · show (initStore a r).getItem refreshKey = some r
    rw [initStore, getItem_set_same]

theorem logout_svcIs (s : Svc) : SvcIs (logout s) none none none none none := by
  have h := logout_reads s
  exact ⟨h.1, h.2.1, h.2.2.1, h.2.2.2.1, h.2.2.2.2⟩

theorem inv_init (o : Oracle n) (a r : String) : Inv o a r (init n a r) := by
  constructor
  · intro _
    exact ⟨rfl, fun _ => rfl, initSvc_reads a r⟩
  · intro h2
    simp [init] at h2
  · intro t h2
    simp [init] at h2
  · intro h2
    simp [init] at h2
  · intro _
    rfl
  · intro i t h2
    simp [init] at h2
  · intro i t h2
    simp [init] at h2

theorem inv_intercept (o : Oracle n) (a r : String) (c c1 : Config n) (i : Fin n)
    (hI : Inv o a r c) (h : applyIntercept c i = some c1) : Inv o a r c1 := by
  obtain ⟨svc, refresh, rcs, ts, rts⟩ := c
  cases htask : ts i with
  | got401 =>
    cases refresh with
    | idle =>
      obtain ⟨hrc, htasks, hsvc⟩ := hI.idleH rfl
      dsimp only at hrc htasks hsvc
      have hR : svc.refreshToken = some r := hsvc.2.1
      simp only [applyIntercept, htask, hR] at h
      injection h with h
      subst h
      constructor <;> dsimp only
      · intro h2
        simp at h2
      · intro _
        refine ⟨by omega, ?_, hsvc⟩
        exact update_forall (P := fun t => t = .got401 ∨ t = .waiting) ts i .waiting
          (fun j => Or.inl (htasks j)) (Or.inr rfl)
      · intro t h2
        simp at h2
      · intro h2
        simp at h2
      · intro j
        rcases eq_or_ne j i with rfl | hj
        · rw [Function.update_same]
          have h3 := hI.retriesH j
          dsimp only at h3
          rw [htask] at h3
          exact h3
        · rw [Function.update_noteq hj]
          exact hI.retriesH j
      · intro j t h2
        rcases update_cases ts i j .waiting with he | he <;> rw [he] at h2
        · cases h2
        · exact hI.succH j t h2
      · intro j t h2
        rcases update_cases ts i j .waiting with he | he <;> rw [he] at h2
        · cases h2
        · exact hI.frH j t h2
    | pending =>
      obtain ⟨hrc, htasks, hsvc⟩ := hI.pendingH rfl
      dsimp only at hrc htasks hsvc
      simp only [applyIntercept, htask] at h
      injection h with h
      subst h
      constructor <;> dsimp only
      · intro h2
        simp at h2
      · intro _
        refine ⟨hrc, ?_, hsvc⟩
        exact update_forall (P := fun t => t = .got401 ∨ t = .waiting) ts i .waiting
          htasks (Or.inr rfl)
      · intro t h2
        simp at h2
      · intro h2
        simp at h2
      · intro j
        rcases eq_or_ne j i with rfl | hj
        · rw [Function.update_same]
          have h3 := hI.retriesH j
          dsimp only at h3
          rw [htask] at h3
          exact h3
        · rw [Function.update_noteq hj]
          exact hI.retriesH j
      · intro j t h2
        rcases update_cases ts i j .waiting with he | he <;> rw [he] at h2
        · cases h2
        · exact hI.succH j t h2
      · intro j t h2
        rcases update_cases ts i j .waiting with he | he <;> rw [he] at h2
        · cases h2
        · exact hI.frH j t h2
    | settledOk t0 =>
      obtain ⟨hrc, hwt, htasks, hsvc⟩ := hI.okH t0 rfl
      dsimp only at hrc hwt htasks hsvc
      simp only [applyIntercept, htask] at h
      injection h with h
      subst h
      constructor <;> dsimp only
      · intro h2
        simp at h2
      · intro h2
        simp at h2
      · intro t h2
        injection h2 with h3
        subst h3
        refine ⟨hrc, hwt, ?_, hsvc⟩
        exact update_forall (P := okTask t0) ts i .waiting htasks trivial
      · intro h2
        simp at h2
      · intro j
        rcases eq_or_ne j i with rfl | hj
        · rw [Function.update_same]
          have h3 := hI.retriesH j
          dsimp only at h3
          rw [htask] at h3
          exact h3
        · rw [Function.update_noteq hj]
          exact hI.retriesH j
      · intro j t h2
        rcases update_cases ts i j .waiting with he | he <;> rw [he] at h2
        · cases h2
        · exact hI.succH j t h2
      · intro j t h2
        rcases update_cases ts i j .waiting with he | he <;> rw [he] at h2
        · cases h2
        · exact hI.frH j t h2
    | settledErr =>
      obtain ⟨hrc, hwt, htasks, hsvc⟩ := hI.errH rfl
      dsimp only at hrc hwt htasks hsvc
      simp only [applyIntercept, htask] at h
      injection h with h
      subst h
      constructor <;> dsimp only
      · intro h2
        simp at h2
      · intro h2
        simp at h2
      · intro t h2
        simp at h2
      · intro _
        refine ⟨hrc, hwt, ?_, hsvc⟩
        exact update_forall (P := errTask) ts i .waiting htasks trivial
      · intro j
        rcases eq_or_ne j i with rfl | hj
        · rw [Function.update_same]
          have h3 := hI.retriesH j
          dsimp only at h3
          rw [htask] at h3
          exact h3
        · rw [Function.update_noteq hj]
          exact hI.retriesH j
      · intro j t h2
        rcases update_cases ts i j .waiting with he | he <;> rw [he] at h2
        · cases h2
        · exact hI.succH j t h2
      · intro j t h2
        rcases update_cases ts i j .waiting with he | he <;> rw [he] at h2
        · cases h2
        · exact hI.frH j t h2
  | waiting => simp [applyIntercept, htask] at h
  | retrying t => simp [applyIntercept, htask] at h
  | succeeded t => simp [applyIntercept, htask] at h
  | failedRetry t => simp [applyIntercept, htask] at h
  | failedSession => simp [applyIntercept, htask] at h

theorem inv_settled_err_mk (o : Oracle n) (a r : String) (svc : Svc) (rcs : Nat)
    (ts : Fin n → TaskSt) (rts : Fin n → Nat)
    (hI : Inv o a r ⟨svc, .pending, rcs, ts, rts⟩)
    (hwt : wireTok o.refreshWire = none)
    (s1 : Svc) (hs1 : SvcIs s1 none none none none none) :
    Inv o a r ⟨s1, .settledErr, rcs, ts, rts⟩ := by
  obtain ⟨hrc, htasks, hsvc⟩ := hI.pendingH rfl
  dsimp only at hrc htasks
  constructor <;> dsimp only
  · intro h2
    simp at h2
  · intro h2
    simp at h2
  · intro t h2
    simp at h2
  · intro _
    refine ⟨hrc, hwt, ?_, hs1⟩
    intro j
    rcases htasks j with hj | hj <;> rw [hj] <;> trivial
  · exact hI.retriesH
  · exact hI.succH
  · exact hI.frH

theorem inv_settle (o : Oracle n) (a r : String) (c c1 : Config n)
    (hI : Inv o a r c) (h : applySettle o c = some c1) : Inv o a r c1 := by
  obtain ⟨svc, refresh, rcs, ts, rts⟩ := c
  cases refresh with
  | pending =>
    obtain ⟨hrc, htasks, hsvc⟩ := hI.pendingH rfl
    dsimp only at hrc htasks hsvc
    cases hw : o.refreshWire with
    | error e =>
      simp only [applySettle, hw] at h
      injection h with h
      subst h
      exact inv_settled_err_mk o a r svc rcs ts rts hI (by simp [wireTok, hw]) _
        (logout_svcIs svc)
    | ok resp =>
      cases hacc : resp.access with
      | none =>
        have hres : doRefreshTokenResume svc resp = (logout svc, .error .noAccessToken) := by
          simp [doRefreshTokenResume, hacc]
        simp only [applySettle, hw, hres] at h
        injection h with h
        subst h
        exact inv_settled_err_mk o a r svc rcs ts rts hI (by simp [wireTok, hw, hacc]) _
          (logout_svcIs svc)
      | some a0 =>
        by_cases ha0 : a0 = ""
        · have hres : doRefreshTokenResume svc resp = (logout svc, .error .noAccessToken) := by
            simp [doRefreshTokenResume, hacc, ha0]
          simp only [applySettle, hw, hres] at h
          injection h with h
          subst h
          exact inv_settled_err_mk o a r svc rcs ts rts hI
            (by simp [wireTok, hw, hacc, ha0]) _ (logout_svcIs svc)
        · have hres : doRefreshTokenResume svc resp =
              (setAuthHeader { svc with accessToken := some a0
                                        store := svc.store.setItem accessKey a0 } a0,
               .ok a0) := by
            simp [doRefreshTokenResume, hacc, ha0]
          simp only [applySettle, hw, hres] at h
          injection h with h
          subst h
          constructor <;> dsimp only
          · intro h2
            simp at h2
          · intro h2
            simp at h2
          · intro t h2
            injection h2 with h3
            subst h3
            refine ⟨hrc, by simp [wireTok, hw, hacc, ha0], ?_, ?_⟩
            · intro j
              rcases htasks j with hj | hj <;> rw [hj] <;> trivial
            · refine ⟨rfl, hsvc.2.1, rfl, ?_, ?_⟩
              · show (svc.store.setItem accessKey a0).getItem accessKey = some a0
                rw [getItem_set_same]
              · show (svc.store.setItem accessKey a0).getItem refreshKey = some r
                rw [getItem_set_other _ _ _ _ (Ne.symm access_ne_refresh)]
                exact hsvc.2.2.2.2
          · intro h2
            simp at h2
          · exact hI.retriesH
          · exact hI.succH
          · exact hI.frH
  | idle => simp [applySettle] at h
  | settledOk t => simp [applySettle] at h
  | settledErr => simp [applySettle] at h

theorem inv_resume (o : Oracle n) (a r : String) (c c1 : Config n) (i : Fin n)
    (hI : Inv o a r c) (h : applyResume c i = some c1) : Inv o a r c1 := by
  obtain ⟨svc, refresh, rcs, ts, rts⟩ := c
  cases htask : ts i with
  | waiting =>
    cases refresh with
    | idle => simp [applyResume, htask] at h
    | pending => simp [applyResume, htask] at h
    | settledOk t0 =>
      obtain ⟨hrc, hwt, htasks, hsvc⟩ := hI.okH t0 rfl
      dsimp only at hrc hwt htasks hsvc
      simp only [applyResume, htask] at h
      injection h with h
      subst h
      constructor <;> dsimp only
      · intro h2
        simp at h2
      · intro h2
        simp at h2
      · intro t h2
        injection h2 with h3
        subst h3
        refine ⟨hrc, hwt, ?_, hsvc⟩
        exact update_forall (P := okTask t0) ts i (.retrying t0) htasks rfl
      · intro h2
        simp at h2
      · intro j
        rcases eq_or_ne j i with rfl | hj
        · rw [Function.update_same, Function.update_same]
          have h3 := hI.retriesH j
          dsimp only at h3
          rw [htask] at h3
          rw [h3]
          rfl
        · rw [Function.update_noteq hj, Function.update_noteq hj]
          exact hI.retriesH j
      · intro j t h2
        rcases eq_or_ne j i with rfl | hj
        · rw [Function.update_same] at h2
          cases h2
        · rw [Function.update_noteq hj] at h2
          exact hI.succH j t h2
      · intro j t h2
        rcases eq_or_ne j i with rfl | hj
        · rw [Function.update_same] at h2
          cases h2
        · rw [Function.update_noteq hj] at h2
          exact hI.frH j t h2
    | settledErr =>
      obtain ⟨hrc, hwt, htasks, hsvc⟩ := hI.errH rfl
      dsimp only at hrc hwt htasks hsvc
      simp only [applyResume, htask] at h
      injection h with h
      subst h
      constructor <;> dsimp only
      · intro h2
        simp at h2
      · intro h2
        simp at h2
      · intro t h2
        simp at h2
      · intro _
        refine ⟨hrc, hwt, ?_, logout_svcIs svc⟩
        exact update_forall (P := errTask) ts i .failedSession htasks trivial
      · intro j
        rcases eq_or_ne j i with rfl | hj
        · rw [Function.update_same]
          have h3 := hI.retriesH j
          dsimp only at h3
          rw [htask] at h3
          exact h3
        · rw [Function.update_noteq hj]
          exact hI.retriesH j
      · intro j t h2
        rcases eq_or_ne j i with rfl | hj
        · rw [Function.update_same] at h2
          cases h2
        · rw [Function.update_noteq hj] at h2
          exact hI.succH j t h2
      · intro j t h2
        rcases eq_or_ne j i with rfl | hj
        · rw [Function.update_same] at h2
          cases h2
        · rw [Function.update_noteq hj] at h2
          exact hI.frH j t h2
  | got401 => cases refresh <;> simp [applyResume, htask] at h
  | retrying t => cases refresh <;> simp [applyResume, htask] at h
  | succeeded t => cases refresh <;> simp [applyResume, htask] at h
  | failedRetry t => cases refresh <;> simp [applyResume, htask] at h
  | failedSession => cases refresh <;> simp [applyResume, htask] at h

theorem inv_retryDone (o : Oracle n) (a r : String) (c c1 : Config n) (i : Fin n)
    (hI : Inv o a r c) (h : applyRetryDone o c i = some c1) : Inv o a r c1 := by
  obtain ⟨svc, refresh, rcs, ts, rts⟩ := c
  cases htask : ts i with
  | retrying t0 =>
    cases refresh with
    | idle =>
      obtain ⟨-, htasks, -⟩ := hI.idleH rfl
      dsimp only at htasks
      rw [htasks i] at htask
      cases htask
    | pending =>
      obtain ⟨-, htasks, -⟩ := hI.pendingH rfl
      dsimp only at htasks
      rcases htasks i with hj | hj <;> rw [hj] at htask <;> cases htask
    | settledErr =>
      obtain ⟨-, -, htasks, -⟩ := hI.errH rfl
      dsimp only at htasks
      have h4 := htasks i
      rw [htask] at h4
      exact h4.elim
    | settledOk t1 =>
      obtain ⟨hrc, hwt, htasks, hsvc⟩ := hI.okH t1 rfl
      dsimp only at hrc hwt htasks hsvc
      have ht01 : t0 = t1 := by
        have h4 := htasks i
        rw [htask] at h4
        exact h4
      subst ht01
      cases hb : o.retry401 i with
      | true =>
        simp only [applyRetryDone, htask, hb] at h
        injection h with h
        subst h
        constructor <;> dsimp only
        · intro h2
          simp at h2
        · intro h2
          simp at h2
        · intro t h2
          injection h2 with h3
          subst h3
          refine ⟨hrc, hwt, ?_, hsvc⟩
          exact update_forall (P := okTask t0) ts i (.failedRetry t0) htasks rfl
        · intro h2
          simp at h2
        · intro j
          rcases eq_or_ne j i with rfl | hj
          · rw [Function.update_same]
            have h3 := hI.retriesH j
            dsimp only at h3
            rw [htask] at h3
            exact h3
          · rw [Function.update_noteq hj]
            exact hI.retriesH j
        · intro j t h2
          rcases eq_or_ne j i with rfl | hj
          · rw [Function.update_same] at h2
            cases h2
          · rw [Function.update_noteq hj] at h2
            exact hI.succH j t h2
        · intro j t h2
          rcases eq_or_ne j i with rfl | hj
          · exact hb
          · rw [Function.update_noteq hj] at h2
            exact hI.frH j t h2
      | false =>
        simp only [applyRetryDone, htask, hb] at h
        injection h with h
        subst h
        constructor <;> dsimp only
        · intro h2
          simp at h2
        · intro h2
          simp at h2
        · intro t h2
          injection h2 with h3
          subst h3
          refine ⟨hrc, hwt, ?_, hsvc⟩
          exact update_forall (P := okTask t0) ts i (.succeeded t0) htasks rfl
        · intro h2
          simp at h2
        · intro j
          rcases eq_or_ne j i with rfl | hj
          · rw [Function.update_same]
            have h3 := hI.retriesH j
            dsimp only at h3
            rw [htask] at h3
            exact h3
          · rw [Function.update_noteq hj]
            exact hI.retriesH j
        · intro j t h2
          rcases eq_or_ne j i with rfl | hj
          · exact hb
          · rw [Function.update_noteq hj] at h2
            exact hI.succH j t h2
        · intro j t h2
          rcases eq_or_ne j i with rfl | hj
          · rw [Function.update_same] at h2
            cases h2
          · rw [Function.update_noteq hj] at h2
            exact hI.frH j t h2
  | got401 => simp [applyRetryDone, htask] at h
  | waiting => simp [applyRetryDone, htask] at h
  | succeeded t => simp [applyRetryDone, htask] at h
  | failedRetry t => simp [applyRetryDone, htask] at h
  | failedSession => simp [applyRetryDone, htask] at h

theorem inv_step (o : Oracle n) (a r : String) (c c1 : Config n) (l : Label n)
    (hI : Inv o a r c) (h : step o c l = some c1) : Inv o a r c1 := by
  cases l with
  | intercept i => exact inv_intercept o a r c c1 i hI h
  | settle => exact inv_settle o a r c c1 hI h
  | resume i => exact inv_resume o a r c c1 i hI h
  | retryDone i => exact inv_retryDone o a r c c1 i hI h

theorem inv_run (o : Oracle n) (a r : String) (c c1 : Config n)
    (ls : List (Label n)) (hI : Inv o a r c) (h : run o c ls = some c1) :
    Inv o a r c1 := by
  induction ls generalizing c with
  | nil =>
    simp only [run] at h
    injection h with h
    subst h
    exact hI
  | cons l ls ih =>
    simp only [run] at h
    cases hs : step o c l with
    | none =>
      simp [hs] at h
    | some c2 =>
      simp only [hs] at h
      exact ih c2 (inv_step o a r c c2 l hI hs) h

theorem sum_update_lt (ts : Fin n → TaskSt) (i : Fin n) (v : TaskSt)
    (hv : trank v < trank (ts i)) :
    (Finset.univ.sum fun j => trank (Function.update ts i v j)) <
      Finset.univ.sum fun j => trank (ts j) := by
  have hmem : i ∈ (Finset.univ : Finset (Fin n)) := Finset.mem_univ i
  have hcomp : ∀ j, trank (Function.update ts i v j) =
      Function.update (fun k => trank (ts k)) i (trank v) j := by
    intro j
    rcases eq_or_ne j i with rfl | hj
    · rw [Function.update_same, Function.update_same]
    · rw [Function.update_noteq hj, Function.update_noteq hj]
  rw [Finset.sum_congr rfl (fun j _ => hcomp j)]
  rw [Finset.sum_update_of_mem hmem]
  rw [Finset.sum_eq_sum_diff_singleton_add hmem (fun k => trank (ts k))]
  omega

theorem applySettle_shape (o : Oracle n) (c c1 : Config n)
    (h : applySettle o c = some c1) :
    c.refresh = .pending ∧ c1.tasks = c.tasks ∧ rrank c1.refresh = 0 := by
  obtain ⟨svc, refresh, rcs, ts, rts⟩ := c
  cases refresh with
  | pending =>
    cases hw : o.refreshWire with
    | error e =>
      simp only [applySettle, hw] at h
      injection h with h
      subst h
      exact ⟨rfl, rfl, rfl⟩
    | ok resp =>
      rcases hres : doRefreshTokenResume svc resp with ⟨s1, out⟩
      cases out with
      | ok t =>
        simp only [applySettle, hw, hres] at h
        injection h with h
        subst h
        exact ⟨rfl, rfl, rfl⟩
      | error e2 =>
        simp only [applySettle, hw, hres] at h
        injection h with h
        subst h
        exact ⟨rfl, rfl, rfl⟩
  | idle => simp [applySettle] at h
  | settledOk t => simp [applySettle] at h
  | settledErr => simp [applySettle] at h

theorem step_mval (o : Oracle n) (c c1 : Config n) (l : Label n)
    (h : step o c l = some c1) : mval c1 < mval c := by
  cases l with
  | intercept i =>
    obtain ⟨svc, refresh, rcs, ts, rts⟩ := c
    cases htask : ts i with
    | got401 =>
      have hlt := sum_update_lt ts i .waiting (by rw [htask]; simp only [trank]; omega)
      cases refresh with
      | idle =>
        cases hR : svc.refreshToken with
        | none =>
          simp only [step, applyIntercept, htask, hR] at h
          injection h with h
          subst h
          simp only [mval, rrank]
          omega
        | some rt =>
          simp only [step, applyIntercept, htask, hR] at h
          injection h with h
          subst h
          simp only [mval, rrank]
          omega
      | pending =>
        simp only [step, applyIntercept, htask] at h
        injection h with h
        subst h
        simp only [mval, rrank]
        omega
      | settledOk t =>
        simp only [step, applyIntercept, htask] at h
        injection h with h
        subst h
        simp only [mval, rrank]
        omega
      | settledErr =>
        simp only [step, applyIntercept, htask] at h
        injection h with h
        subst h
        simp only [mval, rrank]
        omega
    | waiting => simp [step, applyIntercept, htask] at h
    | retrying t => simp [step, applyIntercept, htask] at h
    | succeeded t => simp [step, applyIntercept, htask] at h
    | failedRetry t => simp [step, applyIntercept, htask] at h
    | failedSession => simp [step, applyIntercept, htask] at h
  | settle =>
    obtain ⟨hpend, htasks, hr0⟩ := applySettle_shape o c c1 h
    simp only [mval, htasks, hpend, hr0]
    simp only [rrank]
    omega
  | resume i =>
    obtain ⟨svc, refresh, rcs, ts, rts⟩ := c
    cases htask : ts i with
    | waiting =>
      cases refresh with
      | idle => simp [step, applyResume, htask] at h
      | pending => simp [step, applyResume, htask] at h
      | settledOk t0 =>
        simp only [step, applyResume, htask] at h
        injection h with h
        subst h
        have hlt := sum_update_lt ts i (.retrying t0) (by rw [htask]; simp only [trank]; omega)
        simp only [mval, rrank]
        omega
      | settledErr =>
        simp only [step, applyResume, htask] at h
        injection h with h
        subst h
        have hlt := sum_update_lt ts i .failedSession (by rw [htask]; simp only [trank]; omega)
        simp only [mval, rrank]
        omega
    | got401 => cases refresh <;> simp [step, applyResume, htask] at h
    | retrying t => cases refresh <;> simp [step, applyResume, htask] at h
    | succeeded t => cases refresh <;> simp [step, applyResume, htask] at h
    | failedRetry t => cases refresh <;> simp [step, applyResume, htask] at h
    | failedSession => cases refresh <;> simp [step, applyResume, htask] at h
  | retryDone i =>
    obtain ⟨svc, refresh, rcs, ts, rts⟩ := c
    cases htask : ts i with
    | retrying t0 =>
      cases hb : o.retry401 i with
      | true =>
        simp only [step, applyRetryDone, htask, hb] at h
        injection h with h
        subst h
        have hlt := sum_update_lt ts i (.failedRetry t0) (by rw [htask]; simp only [trank]; omega)
        simp only [mval, rrank]
        omega
      | false =>
        simp only [step, applyRetryDone, htask, hb] at h
        injection h with h
        subst h
        have hlt := sum_update_lt ts i (.succeeded t0) (by rw [htask]; simp only [trank]; omega)
        simp only [mval, rrank]
        omega
    | got401 => simp [step, applyRetryDone, htask] at h
    | waiting => simp [step, applyRetryDone, htask] at h
    | succeeded t => simp [step, applyRetryDone, htask] at h
    | failedRetry t => simp [step, applyRetryDone, htask] at h
    | failedSession => simp [step, applyRetryDone, htask] at h

theorem run_length (o : Oracle n) (c c1 : Config n) (ls : List (Label n))
    (h : run o c ls = some c1) : ls.length + mval c1 ≤ mval c := by
  induction ls generalizing c with
  | nil =>
    simp only [run] at h
    injection h with h
    subst h
    simp
  | cons l ls ih =>
    simp only [run] at h
    cases hs : step o c l with
    | none => simp [hs] at h
    | some c2 =>
      simp only [hs] at h
      have h1 := ih c2 h
      have h2 := step_mval o c c2 l hs
      simp only [List.length_cons]
      omega

theorem mval_init (a r : String) : mval (init n a r) = 3 * n + 2 := by
  simp only [mval, init, rrank]
  rw [Finset.sum_const, Finset.card_univ, Fintype.card_fin, smul_eq_mul]
  simp only [trank]
  omega

theorem refreshCalls_le_one (o : Oracle n) (a r : String) (c : Config n)
    (hI : Inv o a r c) : c.refreshCalls ≤ 1 := by
  cases href : c.refresh with
  | idle =>
    have h1 := (hI.idleH href).1
    omega
  | pending =>
    have h1 := (hI.pendingH href).1
    omega
  | settledOk t =>
    have h1 := (hI.okH t href).1
    omega
  | settledErr =>
    have h1 := (hI.errH href).1
    omega

theorem progress (o : Oracle n) (a r : String) (c : Config n)
    (hI : Inv o a r c) (i : Fin n) (hi : (c.tasks i).final = false) :
    ∃ l c1, step o c l = some c1 := by
  cases htask : c.tasks i with
  | got401 =>
    refine ⟨.intercept i, Option.isSome_iff_exists.mp ?_⟩
    cases href : c.refresh with
    | idle =>
      obtain ⟨-, -, hsvc⟩ := hI.idleH href
      have hR : c.svc.refreshToken = some r := hsvc.2.1
      simp only [step, applyIntercept, htask, href, hR, Option.isSome_some]
    | pending => simp only [step, applyIntercept, htask, href, Option.isSome_some]
    | settledOk t => simp only [step, applyIntercept, htask, href, Option.isSome_some]
    | settledErr => simp only [step, applyIntercept, htask, href, Option.isSome_some]
  | waiting =>
    cases href : c.refresh with
    | idle =>
      obtain ⟨-, htasks, -⟩ := hI.idleH href
      rw [htasks i] at htask
      cases htask
    | pending =>
      refine ⟨.settle, Option.isSome_iff_exists.mp ?_⟩
      cases hw : o.refreshWire with
      | error e => simp only [step, applySettle, href, hw, Option.isSome_some]
      | ok resp =>
        rcases hres : doRefreshTokenResume c.svc resp with ⟨s1, out⟩
        cases out <;> simp only [step, applySettle, href, hw, hres, Option.isSome_some]
    | settledOk t =>
      refine ⟨.resume i, Option.isSome_iff_exists.mp ?_⟩
      simp only [step, applyResume, htask, href, Option.isSome_some]
    | settledErr =>
      refine ⟨.resume i, Option.isSome_iff_exists.mp ?_⟩
      simp only [step, applyResume, htask, href, Option.isSome_some]
  | retrying t =>
    refine ⟨.retryDone i, Option.isSome_iff_exists.mp ?_⟩
    cases hb : o.retry401 i <;>
      simp only [step, applyRetryDone, htask, hb, Option.isSome_some]
  | succeeded t =>
    rw [htask] at hi
    simp [TaskSt.final] at hi
  | failedRetry t =>
    rw [htask] at hi
    simp [TaskSt.final] at hi
  | failedSession =>
    rw [htask] at hi
    simp [TaskSt.final] at hi

/-- C1: for every set of `n ≥ 2` concurrent requests that each receive a 401
before any refresh completes (the `interceptsBeforeSettle` schedules, which
are the ones the event loop realizes then), the coordinator issues exactly
one `token/refresh/` network call once all requests have resolved, and never
more than one at any reachable point; and every execution terminates with
every request resolved (progress from any unresolved configuration plus the
uniform bound on schedule length). -/
theorem single_flight_refresh (n : Nat) (o : Oracle n) (a r : String)
    (hn : 2 ≤ n) (ls : List (Label n)) (c : Config n)
    (hrun : run o (init n a r) ls = some c)
    (horder : interceptsBeforeSettle ls = true) :
    c.refreshCalls ≤ 1 ∧
    ((∀ i, (c.tasks i).final = true) → c.refreshCalls = 1) ∧
    ((¬ ∀ i, (c.tasks i).final = true) → ∃ l c1, step o c l = some c1) ∧
    ls.length ≤ 3 * n + 2 := by
  have hI := inv_run o a r _ c ls (inv_init o a r) hrun
  have hbound := run_length o _ c ls hrun
  have hm := mval_init (n := n) a r
  refine ⟨refreshCalls_le_one o a r c hI, ?_, ?_, by omega⟩
  · intro hfin
    cases href : c.refresh with
    | idle =>
      exfalso
      have i0 : Fin n := ⟨0, by omega⟩
      have h1 := (hI.idleH href).2.1 i0
      have hf := hfin i0
      rw [h1] at hf
      simp [TaskSt.final] at hf
    | pending =>
      exfalso
      have i0 : Fin n := ⟨0, by omega⟩
      have hf := hfin i0
      rcases (hI.pendingH href).2.1 i0 with hj | hj <;> rw [hj] at hf <;>
        simp [TaskSt.final] at hf
    | settledOk t => exact (hI.okH t href).1
    | settledErr => exact (hI.errH href).1
  · intro hne
    push_neg at hne
    obtain ⟨i, hi⟩ := hne
    have hif : (c.tasks i).final = false := by simpa using hi
    exact progress o a r c hI i hif

theorem single_flight_refresh_witness :
    okFinal.refreshCalls = 1 ∧ okTrace.length ≤ 3 * 2 + 2 := by
  have h := single_flight_refresh 2 okOracle ("T1") ("R1") (by omega) okTrace
    okFinal rfl (by decide)
  exact ⟨h.2.1 (by decide), h.2.2.2⟩

/-- C2: every request is retried at most once after an unauthorized response;
a request whose retry is unauthorized again (after a successful refresh) ends
as a terminal failure delivered to its caller, with exactly one retry
dispatch, and it never causes a second `token/refresh/` call. -/
theorem request_retried_at_most_once (n : Nat) (o : Oracle n) (a r : String)
    (ls : List (Label n)) (c : Config n)
    (hrun : run o (init n a r) ls = some c) :
    (∀ i, c.retries i ≤ 1) ∧ c.refreshCalls ≤ 1 ∧
    (∀ i t, c.refresh = .settledOk t → o.retry401 i = true →
      (c.tasks i).final = true → c.tasks i = .failedRetry t ∧ c.retries i = 1) := by
  have hI := inv_run o a r _ c ls (inv_init o a r) hrun
  refine ⟨?_, refreshCalls_le_one o a r c hI, ?_⟩
  · intro i
    have h1 := hI.retriesH i
    rw [h1]
    cases c.tasks i <;> simp [retriesOf]
  · intro i t href hb hf
    obtain ⟨-, -, htasks, -⟩ := hI.okH t href
    have hok := htasks i
    cases htask : c.tasks i with
    | got401 =>
      rw [htask] at hf
      simp [TaskSt.final] at hf
    | waiting =>
      rw [htask] at hf
      simp [TaskSt.final] at hf
    | retrying t2 =>
      rw [htask] at hf
      simp [TaskSt.final] at hf
    | succeeded t2 =>
      exfalso
      rw [hI.succH i t2 htask] at hb
      simp at hb
    | failedRetry t2 =>
      rw [htask] at hok
      have h5 : t2 = t := hok
      have h6 := hI.retriesH i
      rw [htask] at h6
      constructor
      · rw [h5]
      · rw [h6]
        rfl
    | failedSession =>
      rw [htask] at hok
      exact hok.elim

theorem request_retried_at_most_once_witness :
    mixFinal.tasks 0 = .failedRetry ("T2") ∧ mixFinal.retries 0 = 1 := by
  have h := request_retried_at_most_once 2 mixOracle ("T1") ("R1") okTrace
    mixFinal rfl
  exact h.2.2 0 ("T2") (by decide) (by decide) (by decide)

/-- C3: after a refresh that completed successfully with access token `t`,
the service holds `t` and the header `Bearer t`; every request that has been
re-dispatched was dispatched exactly once and carried exactly `t`; once all
requests have resolved every one of them was re-dispatched exactly once with
`t`; and when `t` differs from the original access token no retry carried the
original token. -/
theorem queued_requests_retried_with_new_token (n : Nat) (o : Oracle n)
    (a r : String) (ls : List (Label n)) (c : Config n) (t : String)
    (hrun : run o (init n a r) ls = some c) (hok : c.refresh = .settledOk t) :
    c.svc.accessToken = some t ∧ c.svc.authHeader = some (bearer t) ∧
    (∀ i t2, c.tasks i = .retrying t2 ∨ c.tasks i = .succeeded t2 ∨
      c.tasks i = .failedRetry t2 → t2 = t ∧ c.retries i = 1) ∧
    ((∀ i, (c.tasks i).final = true) →
      ∀ i, c.retries i = 1 ∧
        (c.tasks i = .succeeded t ∨ c.tasks i = .failedRetry t)) ∧
    (a ≠ t → ∀ i t2, (c.tasks i = .retrying t2 ∨ c.tasks i = .succeeded t2 ∨
      c.tasks i = .failedRetry t2) → t2 ≠ a) := by
  have hI := inv_run o a r _ c ls (inv_init o a r) hrun
  obtain ⟨hrc, hwt, htasks, hsvc⟩ := hI.okH t hok
  refine ⟨hsvc.1, hsvc.2.2.1, ?_, ?_, ?_⟩
  · intro i t2 hdisp
    have hok2 := htasks i
    have h6 := hI.retriesH i
    rcases hdisp with hd | hd | hd <;> rw [hd] at hok2 h6 <;> exact ⟨hok2, by rw [h6]; rfl⟩
  · intro hfin i
    have hok2 := htasks i
    have h6 := hI.retriesH i
    have hf := hfin i
    cases htask : c.tasks i with
    | got401 =>
      rw [htask] at hf
      simp [TaskSt.final] at hf
    | waiting =>
      rw [htask] at hf
      simp [TaskSt.final] at hf
    | retrying t2 =>
      rw [htask] at hf
      simp [TaskSt.final] at hf
    | succeeded t2 =>
      rw [htask] at hok2 h6
      exact ⟨by rw [h6]; rfl, Or.inl (by rw [hok2])⟩
    | failedRetry t2 =>
      rw [htask] at hok2 h6
      exact ⟨by rw [h6]; rfl, Or.inr (by rw [hok2])⟩
    | failedSession =>
      rw [htask] at hok2
      exact hok2.elim
  · intro hat i t2 hdisp
    have h5 : t2 = t := by
      have hok2 := htasks i
      rcases hdisp with hd | hd | hd <;> rw [hd] at hok2 <;> exact hok2
    rw [h5]
    exact fun he => hat he.symm

theorem queued_requests_retried_with_new_token_witness :
    okFinal.svc.accessToken = some ("T2") ∧ okFinal.retries 0 = 1 := by
  have h := queued_requests_retried_with_new_token 2 okOracle ("T1") ("R1")
    okTrace okFinal ("T2") rfl (by decide)
  exact ⟨h.1, (h.2.2.2.1 (by decide) 0).1⟩

/-- C4: whenever the refresh attempt has failed, both credentials are already
cleared from memory, durable storage and the header in that very
configuration (the clearing is atomic with the transition), no request has
ever been retried, and once all requests have resolved every request queued
behind the refresh was resolved as a session-expired failure rather than
retried. -/
theorem refresh_failure_clears_and_fails_queue (n : Nat) (o : Oracle n)
    (a r : String) (ls : List (Label n)) (c : Config n)
    (hrun : run o (init n a r) ls = some c) (herr : c.refresh = .settledErr) :
    SvcIs c.svc none none none none none ∧
    (∀ i, c.tasks i = .got401 ∨ c.tasks i = .waiting ∨
      c.tasks i = .failedSession) ∧
    (∀ i, c.retries i = 0) ∧
    ((∀ i, (c.tasks i).final = true) → ∀ i, c.tasks i = .failedSession) := by
  have hI := inv_run o a r _ c ls (inv_init o a r) hrun
  obtain ⟨hrc, hwt, htasks, hsvc⟩ := hI.errH herr
  refine ⟨hsvc, ?_, ?_, ?_⟩
  · intro i
    have h4 := htasks i
    cases htask : c.tasks i with
    | got401 => exact Or.inl rfl
    | waiting => exact Or.inr (Or.inl rfl)
    | failedSession => exact Or.inr (Or.inr rfl)
    | retrying t =>
      rw [htask] at h4
      exact h4.elim
    | succeeded t =>
      rw [htask] at h4
      exact h4.elim
    | failedRetry t =>
      rw [htask] at h4
      exact h4.elim
  · intro i
    have h4 := htasks i
    have h6 := hI.retriesH i
    cases htask : c.tasks i with
    | got401 =>
      rw [h6, htask]
      rfl
    | waiting =>
      rw [h6, htask]
      rfl
    | failedSession =>
      rw [h6, htask]
      rfl
    | retrying t =>
      rw [htask] at h4
      exact h4.elim
    | succeeded t =>
      rw [htask] at h4
      exact h4.elim
    | failedRetry t =>
      rw [htask] at h4
      exact h4.elim
  · intro hfin i
    have h4 := htasks i
    have hf := hfin i
    cases htask : c.tasks i with
    | got401 =>
      rw [htask] at hf
      simp [TaskSt.final] at hf
    | waiting =>
      rw [htask] at hf
      simp [TaskSt.final] at hf
    | failedSession => rfl
    | retrying t =>
      rw [htask] at h4
      exact h4.elim
    | succeeded t =>
      rw [htask] at h4
      exact h4.elim
    | failedRetry t =>
      rw [htask] at h4
      exact h4.elim

theorem refresh_failure_clears_and_fails_queue_witness :
    failFinal.svc.accessToken = none ∧ failFinal.tasks 0 = .failedSession ∧
    failFinal.retries 0 = 0 := by
  have h := refresh_failure_clears_and_fails_queue 2 failOracle ("T1") ("R1")
    failTrace failFinal rfl (by decide)
  exact ⟨h.1.1, h.2.2.2 (by decide) 0, h.2.2.1 0⟩

end Machine

end FinNet
